import Mathlib

/-!
Verification development for the `unredact.py` batch PDF text-recovery tool.

The program is shallowly embedded: filesystem paths are lists of components,
an opened PDF document is the list of raw per-page text layers returned by the
external parsing library, filesystem state is a pair of (directory set, file
map), and each external operation that can raise an exception (opening the
PDF, creating the output directory, writing the output file) is modelled by an
injected outcome carried in a `World` value, mirroring the `try/except` in
`process_pdf`.
-/

namespace Unredact

/-- A filesystem path, as its list of components. -/
abbrev Path := List String

/-- Renders a path the way the summary printer displays it. -/
def showPath : Path → String
  | [] => ""
  | [a] => a
  | a :: rest => a ++ "/" ++ showPath rest

/-- Does the pattern (first argument) occur as an initial segment of the
second list? -/
def startsWithCh : List Char → List Char → Bool
  | [], _ => true
  | _ :: _, [] => false
  | a :: as, b :: bs => a == b && startsWithCh as bs

/-- Does the pattern (first argument) occur as a final segment of the second
list? -/
def endsWithCh (pat cs : List Char) : Bool :=
  startsWithCh pat.reverse cs.reverse

/-- Python `str.strip()`: drops leading and trailing whitespace. -/
def pyStrip (s : String) : String :=
  (((s.data.dropWhile Char.isWhitespace).reverse.dropWhile Char.isWhitespace).reverse).asString

/-- Python `str.lower()` on the ASCII names this tool compares. -/
def pyLower (s : String) : String :=
  (s.data.map Char.toLower).asString

/-- Python `str.endswith` / the fnmatch test of the glob pattern `*.pdf`:
`*` matches any (possibly empty) run of characters, so a name matches exactly
when it ends with the literal tail. -/
def pyEndsWith (s tail : String) : Bool :=
  endsWithCh tail.data s.data

/-- Last index of a dot inside a file name, if any (Python str.rfind). -/
def lastDotIdx (cs : List Char) : Option Nat :=
  ((cs.enum.filter (fun e => e.2 == '.')).map (fun e => e.1)).getLast?

/-- Splits a file name into pathlib stem and pathlib extension: the extension
is the part from the last dot onward, provided that dot is neither the first
nor the last character of the name. -/
def splitExtName (name : String) : String × String :=
  let cs := name.toList
  match lastDotIdx cs with
  | none => (name, "")
  | some i =>
    if 0 < i && i + 1 < cs.length then ((cs.take i).asString, (cs.drop i).asString)
    else (name, "")

/-- pathlib `Path.stem`. -/
def nameStem (name : String) : String := (splitExtName name).1

/-- pathlib `Path.suffix`. -/
def nameSuffix (name : String) : String := (splitExtName name).2

/-- Last component of a path (pathlib `Path.name`); empty for the root. -/
def lastName (p : Path) : String := p.getLast?.getD ""

/-- Component-list test used for path containment: does `root` occur as an
initial segment of `q`? -/
def isPrefixList : List String → List String → Bool
  | [], _ => true
  | _ :: _, [] => false
  | a :: as, b :: bs => a == b && isPrefixList as bs

/-- pathlib `Path.relative_to`: strips `root` from the front of `p`, raising
(`none`) when `p` is not beneath `root`. -/
def relativeTo (p root : Path) : Option Path :=
  if isPrefixList root p then some (p.drop root.length) else none

/-- pathlib `Path.parent` on a relative path. -/
def parentOf (p : Path) : Path := p.dropLast

/-- Strictly-below test used by the recursive glob: `q` lies under `root` at
depth at least one. -/
def isStrictUnder (root q : Path) : Bool :=
  isPrefixList root q && decide (root.length < q.length)

/-- Kind of an input-filesystem entry. -/
inductive EntryKind where
  | efile : EntryKind
  | edir : EntryKind
deriving DecidableEq, BEq, Repr

/-- The input filesystem visible to `find_pdfs`: the set of existing entries
with their kinds. -/
structure InFS where
  entries : List (Path × EntryKind)

/-- pathlib `Path.is_file` over the modelled input filesystem. -/
def InFS.isFile (m : InFS) (p : Path) : Bool :=
  m.entries.any (fun e => e.1 == p && e.2 == EntryKind.efile)

/-- pathlib `Path.is_dir` over the modelled input filesystem. -/
def InFS.isDir (m : InFS) (p : Path) : Bool :=
  m.entries.any (fun e => e.1 == p && e.2 == EntryKind.edir)

/-- Source `find_pdfs`: a regular file whose suffix lowercases to ".pdf" is
returned alone; otherwise `rglob("*.pdf")` yields every entry (pathlib glob
matches files of any kind, directories included) strictly beneath the path
whose name matches the case-sensitive pattern, and a path that is not a
directory yields nothing. -/
def find_pdfs (m : InFS) (p : Path) : List Path :=
  if m.isFile p && pyLower (nameSuffix (lastName p)) == ".pdf" then [p]
  else if m.isDir p then
    (m.entries.filter
      (fun e => isStrictUnder p e.1 && pyEndsWith (lastName e.1) ".pdf")).map (fun e => e.1)
  else []

/-- An opened PDF document: the raw text layer of each page in document order,
`none` when the library call for that page returns no string (the `or ""` in
the source). -/
structure Doc where
  pages : List (Option String)

/-- Result of running the extractor on an opened document: the page strings
plus whether the document handle was closed before returning. -/
structure ExtractOut where
  pages : List String
  handleClosed : Bool

/-- Source `extract_text_ignore_overlays`: reads each page's text layer
(`page.get_text("text") or ""`), strips it, and closes the document handle
before returning the ordered list of page strings. -/
def extract_text_ignore_overlays (doc : Doc) : ExtractOut :=
  { pages := doc.pages.map (fun t => pyStrip (t.getD "")), handleClosed := true }

/-- Outcomes of the external operations a single `process_pdf` call performs:
opening/reading the PDF, `mkdir`, and the output-file write.  An `error`/
`some` value models that operation raising an exception with that message. -/
structure World where
  extract : Except String Doc
  mkdirErr : Option String
  writeErr : Option String

/-- Output-side filesystem state: which directories exist and the byte
content of each file. -/
structure FS where
  dirs : Path → Bool
  files : Path → Option String

/-- The empty output filesystem. -/
def emptyFS : FS := { dirs := fun _ => false, files := fun _ => none }

/-- `mkdir(parents=True, exist_ok=True)`: the directory and all its ancestors
exist afterwards. -/
def mkdirP (fs : FS) (d : Path) : FS :=
  { fs with dirs := fun q => fs.dirs q || isPrefixList q d }

/-- `open(out_file, "w")` followed by the writes: unconditionally replaces the
content stored at the path. -/
def updFile (fs : FS) (p : Path) (c : String) : FS :=
  { fs with files := fun q => if q = p then some c else fs.files q }

/-- What the write loop emits for one page: the header line (with its leading
newline, as in the f-string) followed by the page text and a newline. -/
def pageBlock (i : Nat) (text : String) : String :=
  "\n--- PAGE " ++ Nat.repr i ++ " ---\n" ++ (text ++ "\n")

/-- Content written for the pages numbered from `i` on (the enumerate loop). -/
def contentFrom (i : Nat) : List String → String
  | [] => ""
  | t :: ts => pageBlock i t ++ contentFrom (i + 1) ts

/-- Full content of a recovered output file: pages enumerated from 1. -/
def recoveredContent (pages : List String) : String := contentFrom 1 pages

/-- Message of the ValueError `relative_to` raises on a non-subpath. -/
def relErrMsg (p root : Path) : String :=
  "'" ++ showPath p ++ "' is not in the subpath of '" ++ showPath root ++ "'"

/-- The (source path, success flag, error message or null) triple. -/
abbrev TaskResult := Path × Bool × Option String

/-- The output path a successful task writes, `<output_root>/<relative
dir>/<stem>_RECOVERED.txt`. -/
def outFileOf (outputRoot rel : Path) (pdfPath : Path) : Path :=
  (outputRoot ++ parentOf rel) ++ [nameStem (lastName pdfPath) ++ "_RECOVERED.txt"]

/-- Source `process_pdf`: extract the pages; if no page is truthy return the
"No extractable text" failure without touching the filesystem; otherwise
mirror the relative directory under the output root, create it, and overwrite
`<stem>_RECOVERED.txt` with the page-delimited content.  Every exception an
external operation raises is caught and turned into a failure triple carrying
its message. -/
def process_pdf (w : World) (pdfPath inputRoot outputRoot : Path) (fs : FS) :
    TaskResult × FS :=
  match w.extract with
  | Except.error e => ((pdfPath, false, some e), fs)
  | Except.ok doc =>
    let pages := (extract_text_ignore_overlays doc).pages
    if !(pages.any (fun t => t != "")) then
      ((pdfPath, false, some "No extractable text"), fs)
    else
      match relativeTo pdfPath inputRoot with
      | none => ((pdfPath, false, some (relErrMsg pdfPath inputRoot)), fs)
      | some rel =>
        match w.mkdirErr with
        | some m => ((pdfPath, false, some m), fs)
        | none =>
          let outDir := outputRoot ++ parentOf rel
          let fs1 := mkdirP fs outDir
          let outFile := outDir ++ [nameStem (lastName pdfPath) ++ "_RECOVERED.txt"]
          match w.writeErr with
          | some m => ((pdfPath, false, some m), fs1)
          | none => ((pdfPath, true, none), updFile fs1 outFile (recoveredContent pages))

/-- The dispatcher's fan-out, linearized: one `process_pdf` task per located
PDF, each returning its result triple, the filesystem threading through. -/
def runBatch (w : Path → World) (inputRoot outputRoot : Path) :
    List Path → FS → List TaskResult × FS
  | [], fs => ([], fs)
  | p :: ps, fs =>
    let x := process_pdf (w p) p inputRoot outputRoot fs
    let y := runBatch w inputRoot outputRoot ps x.2
    (x.1 :: y.1, y.2)

/-- The summary block's data: counts plus the failure listing. -/
structure Summary where
  processed : Nat
  recovered : Nat
  failed : Nat
  failures : List (Path × Option String)

/-- Computes the summary the way `main` does: successes counted, failures as
total minus successes, failing triples listed with their messages. -/
def summarize (rs : List TaskResult) : Summary :=
  let s := (rs.filter (fun r => r.2.1)).length
  { processed := rs.length
    recovered := s
    failed := rs.length - s
    failures := (rs.filter (fun r => !r.2.1)).map (fun r => (r.1, r.2.2)) }

/-- How the failure printer shows an error message (Python prints None). -/
def showErr : Option String → String
  | none => "None"
  | some e => e

/-- Observable outcome of a `main` run: the printed lines, the resulting
output filesystem, and the process exit status. -/
structure MainResult where
  printed : List String
  fs : FS
  exitCode : Nat

/-- Source `main` after argument parsing: resolve the roots, create the
output root, locate the PDFs; with none found print "No PDFs found." and
return, otherwise run the batch and print the summary block followed by one
line per failure.  Every return path exits with status 0. -/
def main (m : InFS) (w : Path → World) (threads : Nat)
    (inputPath outputPath : Path) (fs : FS) : MainResult :=
  let inputRoot := inputPath
  let outputRoot := outputPath
  let fs0 := mkdirP fs outputRoot
  let pdfs := find_pdfs m inputRoot
  if pdfs.isEmpty then
    { printed := ["No PDFs found."], fs := fs0, exitCode := 0 }
  else
    let b := runBatch w inputRoot outputRoot pdfs fs0
    let s := summarize b.1
    { printed :=
        ["[*] Found " ++ Nat.repr pdfs.length ++ " PDFs",
         "[*] Threads: " ++ Nat.repr threads,
         "[*] Output root: " ++ showPath outputRoot,
         "\n=== SUMMARY ===",
         "Processed: " ++ Nat.repr s.processed,
         "Recovered: " ++ Nat.repr s.recovered,
         "Failed: " ++ Nat.repr s.failed] ++
        s.failures.map (fun f => "[FAIL] " ++ showPath f.1 ++ ": " ++ showErr f.2),
      fs := b.2
      exitCode := 0 }

/-- Splits a character sequence at newlines, the way a text file is read back
as lines; a trailing newline yields a final empty line. -/
def linesOf : List Char → List (List Char)
  | [] => [[]]
  | c :: rest =>
    if c = '\n' then [] :: linesOf rest
    else
      match linesOf rest with
      | [] => [[c]]
      | l :: ls => (c :: l) :: ls

/-- Characters of the fixed front part of a page header line. -/
def hdrPre : List Char := "--- PAGE ".data

/-- Characters of the fixed back part of a page header line. -/
def hdrSuf : List Char := " ---".data

/-- Characters of the header line written for page `i`. -/
def hdrChars (i : Nat) : List Char := hdrPre ++ Nat.toDigits 10 i ++ hdrSuf

/-- Recognizes a line of the shape the spec counts as a page header:
`--- PAGE N ---` with `N` a nonempty run of decimal digits. -/
def isHeaderChars (cs : List Char) : Bool :=
  startsWithCh hdrPre cs &&
    (let mid := cs.drop hdrPre.length
     endsWithCh hdrSuf mid &&
       (let ds := mid.take (mid.length - hdrSuf.length)
        !ds.isEmpty && ds.all Char.isDigit))

/-- Number of `--- PAGE N ---` header lines in a file's byte content. -/
def countHeaderLines (s : String) : Nat :=
  ((linesOf s.data).filter isHeaderChars).length

/-- The file write a single `process_pdf` call performs, as a (path, content)
list: empty on every failure branch, one write on success. -/
def procWrites (w : World) (pdfPath inputRoot outputRoot : Path) :
    List (Path × String) :=
  match w.extract with
  | Except.error _ => []
  | Except.ok doc =>
    let pages := (extract_text_ignore_overlays doc).pages
    if !(pages.any (fun t => t != "")) then []
    else
      match relativeTo pdfPath inputRoot with
      | none => []
      | some rel =>
        match w.mkdirErr with
        | some _ => []
        | none =>
          match w.writeErr with
          | some _ => []
          | none => [(outFileOf outputRoot rel pdfPath, recoveredContent pages)]

/-- All file writes a batch performs, in task order. -/
def batchWrites (w : Path → World) (inputRoot outputRoot : Path) :
    List Path → List (Path × String)
  | [] => []
  | p :: ps =>
    procWrites (w p) p inputRoot outputRoot ++ batchWrites w inputRoot outputRoot ps

/-- Applies a list of file writes, in order, over a file map. -/
def overrideAll (ws : List (Path × String)) (g : Path → Option String) :
    Path → Option String :=
  ws.foldl (fun g0 e => fun q => if q = e.1 then some e.2 else g0 q) g

/-- The content of the last write a write list performs at a given path. -/
def lastWrite (ws : List (Path × String)) (q : Path) : Option String :=
  match ws with
  | [] => none
  | e :: rest =>
    match lastWrite rest q with
    | some v => some v
    | none => if q = e.1 then some e.2 else none

/-- Two-page document of the spec's concrete scenario: page 1 reads
CONFIDENTIAL, page 2 is empty. -/
def docA : Doc := { pages := [some "CONFIDENTIAL", some ""] }

/-- World in which `a.pdf` opens as `docA` and all filesystem calls succeed. -/
def worldA : World := { extract := Except.ok docA, mkdirErr := none, writeErr := none }

/-- Document whose pages carry only whitespace, so every trimmed page is
empty. -/
def docBlank : Doc := { pages := [some "", some "   \n "] }

/-- World in which the PDF opens but yields no extractable text. -/
def worldBlank : World := { extract := Except.ok docBlank, mkdirErr := none, writeErr := none }

/-- Single-page document whose page text is itself a header-shaped line. -/
def docHeaderText : Doc := { pages := [some "--- PAGE 1 ---"] }

/-- World in which the PDF opens as `docHeaderText`. -/
def worldHeaderText : World :=
  { extract := Except.ok docHeaderText, mkdirErr := none, writeErr := none }

/-- World in which opening the PDF raises, as for a file that is not a valid
PDF. -/
def worldBadOpen : World :=
  { extract := Except.error "cannot open broken.pdf", mkdirErr := none, writeErr := none }

/-- World in which extraction succeeds but creating the output directory
raises. -/
def worldMkdirFail : World :=
  { extract := Except.ok docA, mkdirErr := some "Permission denied", writeErr := none }

/-- World in which extraction and mkdir succeed but the file write raises. -/
def worldWriteFail : World :=
  { extract := Except.ok docA, mkdirErr := none, writeErr := some "No space left on device" }

/-- Input tree holding one directory that ends in .pdf and one real PDF
file. -/
def treeWithPdfDir : InFS :=
  { entries :=
      [(["r"], EntryKind.edir),
       (["r", "d.pdf"], EntryKind.edir),
       (["r", "s"], EntryKind.edir),
       (["r", "s", "x.pdf"], EntryKind.efile)] }

/-- Input tree holding a single mixed-case PDF file. -/
def treeOneUpper : InFS := { entries := [(["f.PDF"], EntryKind.efile)] }

/-- The empty input tree. -/
def treeEmpty : InFS := { entries := [] }

lemma startsWithCh_append_self (a b : List Char) : startsWithCh a (a ++ b) = true := by
  induction a with
  | nil => rfl
  | cons c cs ih => simp [startsWithCh, ih]

lemma linesOf_ne_nil (cs : List Char) : linesOf cs ≠ [] := by
  induction cs with
  | nil => simp [linesOf]
  | cons c rest ih =>
    by_cases hc : c = '\n'
    · simp [linesOf, hc]
    · simp only [linesOf, if_neg hc]
      cases h : linesOf rest with
      | nil => simp
      | cons l ls => simp

lemma linesOf_append_nl (a b : List Char) :
    linesOf (a ++ '\n' :: b) = linesOf a ++ linesOf b := by
  induction a with
  | nil => simp [linesOf]
  | cons c cs ih =>
    by_cases hc : c = '\n'
    · subst hc
      simp [linesOf, ih]
    · simp only [List.cons_append, linesOf, if_neg hc, List.append_eq]
      rw [ih]
      cases h : linesOf cs with
      | nil => exact absurd h (linesOf_ne_nil cs)
      | cons l ls => simp [h]

lemma linesOf_no_nl (cs : List Char) (h : '\n' ∉ cs) : linesOf cs = [cs] := by
  induction cs with
  | nil => rfl
  | cons c rest ih =>
    have hc : c ≠ '\n' := fun hc => h (hc ▸ List.mem_cons_self c rest)
    have hrest : '\n' ∉ rest := fun hm => h (List.mem_cons_of_mem c hm)
    simp only [linesOf, if_neg hc, ih hrest]

lemma digitChar_isDigit {m : Nat} (h : m < 10) : (Nat.digitChar m).isDigit = true := by
  interval_cases m <;> decide

lemma toDigitsCore_digits (fuel : Nat) :
    ∀ (n : Nat) (ds : List Char), (∀ c ∈ ds, c.isDigit = true) →
      ∀ c ∈ Nat.toDigitsCore 10 fuel n ds, c.isDigit = true := by
  induction fuel with
  | zero => intro n ds h c hc; exact h c hc
  | succ f ih =>
    intro n ds h c hc
    have hd : ∀ x ∈ Nat.digitChar (n % 10) :: ds, x.isDigit = true := by
      intro x hx
      rcases List.mem_cons.mp hx with hx | hx
      · subst hx; exact digitChar_isDigit (Nat.mod_lt n (by omega))
      · exact h x hx
    simp only [Nat.toDigitsCore] at hc
    by_cases hz : n / 10 = 0
    · rw [if_pos hz] at hc
      exact hd c hc
    · rw [if_neg hz] at hc
      exact ih (n / 10) (Nat.digitChar (n % 10) :: ds) hd c hc

lemma toDigitsCore_ne_nil_acc (fuel : Nat) :
    ∀ (n : Nat) (ds : List Char), ds ≠ [] → Nat.toDigitsCore 10 fuel n ds ≠ [] := by
  induction fuel with
  | zero => intro n ds h; exact h
  | succ f ih =>
    intro n ds _
    simp only [Nat.toDigitsCore]
    by_cases hz : n / 10 = 0
    · rw [if_pos hz]; simp
    · rw [if_neg hz]
      exact ih (n / 10) (Nat.digitChar (n % 10) :: ds) (by simp)

lemma toDigits_ne_nil (n : Nat) : Nat.toDigits 10 n ≠ [] := by
  show Nat.toDigitsCore 10 (n + 1) n [] ≠ []
  simp only [Nat.toDigitsCore]
  by_cases hz : n / 10 = 0
  · rw [if_pos hz]; simp
  · rw [if_neg hz]
    exact toDigitsCore_ne_nil_acc n (n / 10) (Nat.digitChar (n % 10) :: []) (by simp)

lemma toDigits_digits (n : Nat) : ∀ c ∈ Nat.toDigits 10 n, c.isDigit = true :=
  toDigitsCore_digits (n + 1) n [] (by intro c hc; cases hc)

lemma hdrChars_no_nl (i : Nat) : '\n' ∉ hdrChars i := by
  intro h
  simp only [hdrChars, List.mem_append] at h
  rcases h with (h | h) | h
  · revert h; decide
  · have := toDigits_digits i '\n' h
    simp [Char.isDigit] at this
  · revert h; decide

lemma isHeaderChars_hdrChars (i : Nat) : isHeaderChars (hdrChars i) = true := by
  have hpre : startsWithCh hdrPre (hdrChars i) = true := by
    simpa [hdrChars, List.append_assoc] using
      startsWithCh_append_self hdrPre (Nat.toDigits 10 i ++ hdrSuf)
  have hdrop : (hdrChars i).drop hdrPre.length = Nat.toDigits 10 i ++ hdrSuf := by
    simp [hdrChars, List.append_assoc, List.drop_left]
  have hsuf : endsWithCh hdrSuf (Nat.toDigits 10 i ++ hdrSuf) = true := by
    rw [endsWithCh, List.reverse_append]
    exact startsWithCh_append_self hdrSuf.reverse (Nat.toDigits 10 i).reverse
  have hlen : (Nat.toDigits 10 i ++ hdrSuf).length - hdrSuf.length
      = (Nat.toDigits 10 i).length := by
    simp [List.length_append]
  have htake : (Nat.toDigits 10 i ++ hdrSuf).take
      ((Nat.toDigits 10 i ++ hdrSuf).length - hdrSuf.length) = Nat.toDigits 10 i := by
    rw [hlen]
    exact List.take_left (Nat.toDigits 10 i) hdrSuf
  simp only [isHeaderChars, hpre, hdrop, hsuf, htake, Bool.true_and]
  refine Bool.and_eq_true _ _ |>.mpr ⟨?_, ?_⟩
  · simpa [List.isEmpty_iff] using toDigits_ne_nil i
  · exact List.all_eq_true.mpr (toDigits_digits i)

lemma pageBlock_data (i : Nat) (t : String) :
    (pageBlock i t).data = '\n' :: (hdrChars i ++ '\n' :: (t.data ++ ['\n'])) := by
  have hrepr : (Nat.repr i).data = Nat.toDigits 10 i := rfl
  simp [pageBlock, String.data_append, hrepr, hdrChars, hdrPre, hdrSuf]

lemma contentFrom_cons_data (i : Nat) (t : String) (ts : List String) :
    (contentFrom i (t :: ts)).data =
      '\n' :: (hdrChars i ++ '\n' :: (t.data ++ '\n' :: (contentFrom (i + 1) ts).data)) := by
  show (pageBlock i t ++ contentFrom (i + 1) ts).data = _
  rw [String.data_append, pageBlock_data]
  simp [List.append_assoc]

lemma countHeaders_contentFrom (ps : List String)
    (hp : ∀ t ∈ ps, ∀ l ∈ linesOf t.data, isHeaderChars l = false) :
    ∀ i, ((linesOf (contentFrom i ps).data).filter isHeaderChars).length = ps.length := by
  induction ps with
  | nil =>
    intro i
    show ((linesOf (String.data "")).filter isHeaderChars).length = 0
    decide
  | cons t ts ih =>
    intro i
    have hpt : ∀ l ∈ linesOf t.data, isHeaderChars l = false :=
      hp t (List.mem_cons_self t ts)
    have hpts : ∀ u ∈ ts, ∀ l ∈ linesOf u.data, isHeaderChars l = false :=
      fun u hu => hp u (List.mem_cons_of_mem t hu)
    rw [contentFrom_cons_data]
    have h1 : linesOf ('\n' :: (hdrChars i ++ '\n' :: (t.data ++ '\n' :: (contentFrom (i + 1) ts).data)))
        = [] :: linesOf (hdrChars i ++ '\n' :: (t.data ++ '\n' :: (contentFrom (i + 1) ts).data)) := by
      simp [linesOf]
    rw [h1, linesOf_append_nl, linesOf_no_nl (hdrChars i) (hdrChars_no_nl i),
      linesOf_append_nl]
    have hnil : isHeaderChars [] = false := by decide
    have hfilt : (linesOf t.data).filter isHeaderChars = [] :=
      List.filter_eq_nil_iff.mpr (by intro l hl; simp [hpt l hl])
    simp [List.filter_append, hnil, isHeaderChars_hdrChars, hfilt, ih hpts (i + 1)]

lemma countHeaderLines_recovered (ps : List String)
    (hp : ∀ t ∈ ps, ∀ l ∈ linesOf t.data, isHeaderChars l = false) :
    countHeaderLines (recoveredContent ps) = ps.length :=
  countHeaders_contentFrom ps hp 1

lemma process_pdf_extract_err (w : World) (p ir orr : Path) (fs : FS) (e : String)
    (hx : w.extract = Except.error e) :
    process_pdf w p ir orr fs = ((p, false, some e), fs) := by
  unfold process_pdf
  rw [hx]

lemma process_pdf_noText (w : World) (doc : Doc) (p ir orr : Path) (fs : FS)
    (hx : w.extract = Except.ok doc)
    (hany : ((extract_text_ignore_overlays doc).pages.any (fun t => t != "")) = false) :
    process_pdf w p ir orr fs = ((p, false, some "No extractable text"), fs) := by
  unfold process_pdf
  rw [hx]
  dsimp only
  rw [hany]
  rfl

lemma process_pdf_mkdir_err (w : World) (doc : Doc) (p ir orr rel : Path) (fs : FS)
    (m : String) (hx : w.extract = Except.ok doc)
    (hany : ((extract_text_ignore_overlays doc).pages.any (fun t => t != "")) = true)
    (hrel : relativeTo p ir = some rel) (hmk : w.mkdirErr = some m) :
    process_pdf w p ir orr fs = ((p, false, some m), fs) := by
  unfold process_pdf
  rw [hx]
  dsimp only
  rw [hany, hrel, hmk]
  rfl

lemma process_pdf_write_err (w : World) (doc : Doc) (p ir orr rel : Path) (fs : FS)
    (m : String) (hx : w.extract = Except.ok doc)
    (hany : ((extract_text_ignore_overlays doc).pages.any (fun t => t != "")) = true)
    (hrel : relativeTo p ir = some rel) (hmk : w.mkdirErr = none)
    (hwr : w.writeErr = some m) :
    process_pdf w p ir orr fs = ((p, false, some m), mkdirP fs (orr ++ parentOf rel)) := by
  unfold process_pdf
  rw [hx]
  dsimp only
  rw [hany, hrel, hmk, hwr]
  rfl

lemma process_pdf_success (w : World) (doc : Doc) (p ir orr rel : Path) (fs : FS)
    (hx : w.extract = Except.ok doc)
    (hany : ((extract_text_ignore_overlays doc).pages.any (fun t => t != "")) = true)
    (hrel : relativeTo p ir = some rel) (hmk : w.mkdirErr = none)
    (hwr : w.writeErr = none) :
    process_pdf w p ir orr fs =
      ((p, true, none),
       updFile (mkdirP fs (orr ++ parentOf rel)) (outFileOf orr rel p)
         (recoveredContent (extract_text_ignore_overlays doc).pages)) := by
  unfold process_pdf
  rw [hx]
  dsimp only
  rw [hany, hrel, hmk, hwr]
  rfl

lemma process_pdf_fst (w : World) (p ir orr : Path) (fs : FS) :
    (process_pdf w p ir orr fs).1.1 = p := by
  unfold process_pdf
  cases hx : w.extract with
  | error e => rfl
  | ok doc =>
    dsimp only
    cases hany : ((extract_text_ignore_overlays doc).pages.any (fun t => t != "")) with
    | false => rfl
    | true =>
      cases hrel : relativeTo p ir with
      | none => rfl
      | some rel =>
        cases hmk : w.mkdirErr with
        | some m => rfl
        | none =>
          cases hwr : w.writeErr with
          | some m => rfl
          | none => rfl

lemma process_pdf_result_ext (w : World) (p ir orr : Path) (fs fs' : FS) :
    (process_pdf w p ir orr fs).1 = (process_pdf w p ir orr fs').1 := by
  unfold process_pdf
  cases hx : w.extract with
  | error e => rfl
  | ok doc =>
    dsimp only
    cases hany : ((extract_text_ignore_overlays doc).pages.any (fun t => t != "")) with
    | false => rfl
    | true =>
      cases hrel : relativeTo p ir with
      | none => rfl
      | some rel =>
        cases hmk : w.mkdirErr with
        | some m => rfl
        | none =>
          cases hwr : w.writeErr with
          | some m => rfl
          | none => rfl

lemma process_pdf_files_eq (w : World) (p ir orr : Path) (fs : FS) :
    (process_pdf w p ir orr fs).2.files = overrideAll (procWrites w p ir orr) fs.files := by
  unfold process_pdf procWrites
  cases hx : w.extract with
  | error e => rfl
  | ok doc =>
    dsimp only
    cases hany : ((extract_text_ignore_overlays doc).pages.any (fun t => t != "")) with
    | false => rfl
    | true =>
      cases hrel : relativeTo p ir with
      | none => rfl
      | some rel =>
        cases hmk : w.mkdirErr with
        | some m => rfl
        | none =>
          cases hwr : w.writeErr with
          | some m => rfl
          | none => rfl

lemma overrideAll_cons (e : Path × String) (ws : List (Path × String))
    (g : Path → Option String) :
    overrideAll (e :: ws) g = overrideAll ws (fun q => if q = e.1 then some e.2 else g q) :=
  rfl

lemma overrideAll_append (a b : List (Path × String)) (g : Path → Option String) :
    overrideAll (a ++ b) g = overrideAll b (overrideAll a g) := by
  simp [overrideAll, List.foldl_append]

lemma overrideAll_apply (ws : List (Path × String)) :
    ∀ (g : Path → Option String) (q : Path),
      overrideAll ws g q =
        match lastWrite ws q with
        | some v => some v
        | none => g q := by
  induction ws with
  | nil => intro g q; rfl
  | cons e rest ih =>
    intro g q
    rw [overrideAll_cons, ih]
    cases h : lastWrite rest q with
    | some v => simp [lastWrite, h]
    | none =>
      simp only [lastWrite, h]
      by_cases hq : q = e.1
      · simp [hq]
      · simp [hq]

lemma overrideAll_idem (ws : List (Path × String)) (g : Path → Option String) (q : Path) :
    overrideAll ws (overrideAll ws g) q = overrideAll ws g q := by
  cases h : lastWrite ws q with
  | some v => simp only [overrideAll_apply, h]
  | none => simp only [overrideAll_apply, h]

lemma runBatch_length (w : Path → World) (ir orr : Path) :
    ∀ (ps : List Path) (fs : FS), (runBatch w ir orr ps fs).1.length = ps.length := by
  intro ps
  induction ps with
  | nil => intro fs; rfl
  | cons p rest ih =>
    intro fs
    simp [runBatch, ih]

lemma runBatch_map_fst (w : Path → World) (ir orr : Path) :
    ∀ (ps : List Path) (fs : FS),
      (runBatch w ir orr ps fs).1.map (fun r => r.1) = ps := by
  intro ps
  induction ps with
  | nil => intro fs; rfl
  | cons p rest ih =>
    intro fs
    simp [runBatch, process_pdf_fst, ih]

lemma runBatch_results_ext (w : Path → World) (ir orr : Path) :
    ∀ (ps : List Path) (fs fs' : FS),
      (runBatch w ir orr ps fs).1 = (runBatch w ir orr ps fs').1 := by
  intro ps
  induction ps with
  | nil => intro fs fs'; rfl
  | cons p rest ih =>
    intro fs fs'
    simp only [runBatch, List.cons.injEq]
    exact ⟨process_pdf_result_ext (w p) p ir orr fs fs', ih _ _⟩

lemma runBatch_files (w : Path → World) (ir orr : Path) :
    ∀ (ps : List Path) (fs : FS),
      (runBatch w ir orr ps fs).2.files = overrideAll (batchWrites w ir orr ps) fs.files := by
  intro ps
  induction ps with
  | nil => intro fs; rfl
  | cons p rest ih =>
    intro fs
    simp only [runBatch, batchWrites, overrideAll_append]
    rw [ih, process_pdf_files_eq]

lemma getD_map_pyStrip (l : List (Option String)) :
    ∀ i : Nat,
      (l.map (fun t => pyStrip (t.getD ""))).getD i "" = pyStrip ((l.getD i none).getD "") := by
  induction l with
  | nil => intro i; cases i <;> rfl
  | cons a as ih =>
    intro i
    cases i with
    | zero => rfl
    | succ j =>
      simp only [List.map_cons, List.getD_cons_succ]
      exact ih j

/-- C1: the claim asserts the recovered file for the two-page
CONFIDENTIAL/empty document consists of exactly
`--- PAGE 1 ---\nCONFIDENTIAL\n\n--- PAGE 2 ---\n\n` with no other bytes.
The write loop emits a newline BEFORE each header line, so the actual file
content carries a leading newline and differs from the claimed bytes. -/
theorem C1_counterexample :
    (process_pdf worldA ["in", "a.pdf"] ["in"] ["out"] emptyFS).1
        = (["in", "a.pdf"], true, none) ∧
      (process_pdf worldA ["in", "a.pdf"] ["in"] ["out"] emptyFS).2.files
          ["out", "a_RECOVERED.txt"]
        ≠ some "--- PAGE 1 ---\nCONFIDENTIAL\n\n--- PAGE 2 ---\n\n" := by
  constructor
  · decide
  · decide

/-- C1 (amended): for the two-page CONFIDENTIAL/empty document the recovery
writer produces an output file whose entire byte content is exactly
`\n--- PAGE 1 ---\nCONFIDENTIAL\n\n--- PAGE 2 ---\n\n`: each page contributes
a newline, the header line `--- PAGE N ---`, the page text and a trailing
newline. -/
theorem C1_amended_exact_bytes :
    (process_pdf worldA ["in", "a.pdf"] ["in"] ["out"] emptyFS).1
        = (["in", "a.pdf"], true, none) ∧
      (process_pdf worldA ["in", "a.pdf"] ["in"] ["out"] emptyFS).2.files
          ["out", "a_RECOVERED.txt"]
        = some "\n--- PAGE 1 ---\nCONFIDENTIAL\n\n--- PAGE 2 ---\n\n" := by
  constructor
  · decide
  · decide

/-- C2: an output file is written if and only if at least one extracted page
has non-empty trimmed text; when every page's trimmed text is empty the task
writes nothing (the filesystem is returned untouched) and fails with exactly
"No extractable text". -/
theorem C2_output_iff_nonempty_text (w : World) (doc : Doc) (p ir orr rel : Path)
    (fs : FS) (hx : w.extract = Except.ok doc) :
    (((extract_text_ignore_overlays doc).pages.any (fun t => t != "")) = false →
      process_pdf w p ir orr fs = ((p, false, some "No extractable text"), fs)) ∧
    (((extract_text_ignore_overlays doc).pages.any (fun t => t != "")) = true →
      relativeTo p ir = some rel → w.mkdirErr = none → w.writeErr = none →
      (process_pdf w p ir orr fs).2.files (outFileOf orr rel p) =
          some (recoveredContent (extract_text_ignore_overlays doc).pages) ∧
        (process_pdf w p ir orr fs).1 = (p, true, none)) := by
  constructor
  · intro hany
    exact process_pdf_noText w doc p ir orr fs hx hany
  · intro hany hrel hmk hwr
    rw [process_pdf_success w doc p ir orr rel fs hx hany hrel hmk hwr]
    constructor
    · simp [updFile]
    · rfl

/-- Witness for C2: the two concrete scenario documents, one with text on
page 1 (file written with the page content) and one with only whitespace
pages (nothing written, "No extractable text"). -/
theorem C2_witness :
    process_pdf worldBlank ["in", "b.pdf"] ["in"] ["out"] emptyFS
        = ((["in", "b.pdf"], false, some "No extractable text"), emptyFS) ∧
      (process_pdf worldA ["in", "a.pdf"] ["in"] ["out"] emptyFS).2.files
          (outFileOf ["out"] ["a.pdf"] ["in", "a.pdf"])
        = some (recoveredContent (extract_text_ignore_overlays docA).pages) := by
  constructor
  · exact (C2_output_iff_nonempty_text worldBlank docBlank ["in", "b.pdf"] ["in"]
      ["out"] ["b.pdf"] emptyFS rfl).1 (by decide)
  · exact ((C2_output_iff_nonempty_text worldA docA ["in", "a.pdf"] ["in"]
      ["out"] ["a.pdf"] emptyFS rfl).2 (by decide) rfl rfl rfl).1

/-- C10: when every trimmed page is empty the task performs no filesystem
modification at all: the returned state is the input state, so neither the
mirrored directory nor the output file is created. -/
theorem C10_no_fs_change_on_no_text (w : World) (doc : Doc) (p ir orr : Path)
    (fs : FS) (hx : w.extract = Except.ok doc)
    (hall : ((extract_text_ignore_overlays doc).pages.any (fun t => t != "")) = false) :
    process_pdf w p ir orr fs = ((p, false, some "No extractable text"), fs) ∧
      (process_pdf w p ir orr fs).2.dirs = fs.dirs ∧
      (process_pdf w p ir orr fs).2.files = fs.files := by
  have h := process_pdf_noText w doc p ir orr fs hx hall
  exact ⟨h, by rw [h], by rw [h]⟩

/-- Witness for C10: the whitespace-only document leaves the empty filesystem
exactly as it was. -/
theorem C10_witness :
    process_pdf worldBlank ["r", "scan.pdf"] ["r"] ["o"] emptyFS
        = ((["r", "scan.pdf"], false, some "No extractable text"), emptyFS) :=
  (C10_no_fs_change_on_no_text worldBlank docBlank ["r", "scan.pdf"] ["r"] ["o"]
    emptyFS rfl (by decide)).1

/-- C4: for every successfully opened document the extractor returns one
string per page in document order, each the whitespace-stripped text layer of
that page, and the document handle is closed before returning. -/
theorem C4_extractor_contract (doc : Doc) (i : Nat) :
    (extract_text_ignore_overlays doc).pages.length = doc.pages.length ∧
      (extract_text_ignore_overlays doc).pages.getD i "" =
        pyStrip ((doc.pages.getD i none).getD "") ∧
      (extract_text_ignore_overlays doc).handleClosed = true :=
  ⟨List.length_map _ _, getD_map_pyStrip doc.pages i, rfl⟩

/-- C5: the claim asserts the directory branch of the locator returns nothing
that is not a file.  `rglob` matches entries of any kind, so a directory
named `d.pdf` is returned as well: here the result contains a path that is a
directory, not a file. -/
theorem C5_counterexample :
    find_pdfs treeWithPdfDir ["r"] = [["r", "d.pdf"], ["r", "s", "x.pdf"]] ∧
      treeWithPdfDir.isFile ["r", "d.pdf"] = false ∧
      treeWithPdfDir.isDir ["r", "d.pdf"] = true := by
  refine ⟨by decide, by decide, by decide⟩

/-- C5 (amended): a regular file whose extension lowercases to ".pdf" is
returned alone; any other existing directory yields exactly the entries (of
any kind, directories included) strictly beneath it whose name matches the
case-sensitive pattern `*.pdf`; a nonexistent path yields the empty sequence
without error. -/
theorem C5_locator_amended (m : InFS) (p : Path) :
    (m.isFile p = true → pyLower (nameSuffix (lastName p)) = ".pdf" →
      find_pdfs m p = [p]) ∧
    ((m.isFile p && (pyLower (nameSuffix (lastName p)) == ".pdf")) = false →
      m.isDir p = true →
      ∀ q : Path, q ∈ find_pdfs m p ↔
        ∃ k, (q, k) ∈ m.entries ∧ isStrictUnder p q = true ∧
          pyEndsWith (lastName q) ".pdf" = true) ∧
    (m.isFile p = false → m.isDir p = false → find_pdfs m p = []) := by
  refine ⟨?_, ?_, ?_⟩
  · intro hf hs
    unfold find_pdfs
    rw [hf, hs]
    simp
  · intro hcond hd q
    unfold find_pdfs
    rw [hcond, hd]
    simp only [Bool.false_eq_true, if_false, if_true, List.mem_map, List.mem_filter,
      Bool.and_eq_true]
    constructor
    · rintro ⟨⟨q1, k⟩, ⟨hmem, hu, he⟩, rfl⟩
      exact ⟨k, hmem, hu, he⟩
    · rintro ⟨k, hmem, hu, he⟩
      exact ⟨(q, k), ⟨hmem, hu, he⟩, rfl⟩
  · intro hf hd
    unfold find_pdfs
    rw [hf, hd]
    simp

/-- Witness for C5: a mixed-case single file is returned alone, a PDF beneath
a directory is found by the recursive branch, and a nonexistent path yields
nothing. -/
theorem C5_witness :
    find_pdfs treeOneUpper ["f.PDF"] = [["f.PDF"]] ∧
      (["r", "s", "x.pdf"] ∈ find_pdfs treeWithPdfDir ["r"]) ∧
      find_pdfs treeEmpty ["nope"] = [] := by
  refine ⟨?_, ?_, ?_⟩
  · exact (C5_locator_amended treeOneUpper ["f.PDF"]).1 (by decide) (by decide)
  · exact ((C5_locator_amended treeWithPdfDir ["r"]).2.1 (by decide) (by decide)
      ["r", "s", "x.pdf"]).mpr ⟨EntryKind.efile, by simp [treeWithPdfDir], by decide, by decide⟩
  · exact (C5_locator_amended treeEmpty ["nope"]).2.2 (by decide) (by decide)

/-- C6: the claim asserts the number of `--- PAGE N ---` header lines in the
output always equals the page count.  A one-page document whose page text is
itself the line `--- PAGE 1 ---` produces a file with two header-shaped
lines. -/
theorem C6_counterexample :
    (process_pdf worldHeaderText ["in", "h.pdf"] ["in"] ["out"] emptyFS).2.files
        ["out", "h_RECOVERED.txt"]
      = some "\n--- PAGE 1 ---\n--- PAGE 1 ---\n" ∧
      countHeaderLines "\n--- PAGE 1 ---\n--- PAGE 1 ---\n" = 2 ∧
      docHeaderText.pages.length = 1 := by
  refine ⟨by decide, by decide, by decide⟩

/-- C6 (amended): for every PDF with at least one non-empty trimmed page, the
output file exists at `<output_root>/<relative_dir>/<stem>_RECOVERED.txt`,
and — provided no page text itself contains a header-shaped line — the number
of `--- PAGE N ---` header lines in it equals the source page count. -/
theorem C6_mirrored_output_amended (w : World) (doc : Doc) (p ir orr rel : Path)
    (fs : FS) (hx : w.extract = Except.ok doc)
    (hany : ((extract_text_ignore_overlays doc).pages.any (fun t => t != "")) = true)
    (hrel : relativeTo p ir = some rel)
    (hmk : w.mkdirErr = none) (hwr : w.writeErr = none)
    (hp : ∀ t ∈ (extract_text_ignore_overlays doc).pages,
      ∀ l ∈ linesOf t.data, isHeaderChars l = false) :
    ∃ c, (process_pdf w p ir orr fs).2.files (outFileOf orr rel p) = some c ∧
      countHeaderLines c = doc.pages.length := by
  rw [process_pdf_success w doc p ir orr rel fs hx hany hrel hmk hwr]
  refine ⟨recoveredContent (extract_text_ignore_overlays doc).pages, ?_, ?_⟩
  · simp [updFile]
  · rw [countHeaderLines_recovered _ hp]
    exact List.length_map _ _

/-- Witness for C6: the CONFIDENTIAL document inside a subdirectory gets its
recovered file under the mirrored path with one header line per page. -/
theorem C6_witness :
    ∃ c, (process_pdf worldA ["in", "sub", "a.pdf"] ["in"] ["out"] emptyFS).2.files
        ["out", "sub", "a_RECOVERED.txt"] = some c ∧
      countHeaderLines c = 2 :=
  C6_mirrored_output_amended worldA docA ["in", "sub", "a.pdf"] ["in"] ["out"]
    ["sub", "a.pdf"] emptyFS rfl (by decide) rfl rfl rfl (by decide)

/-- C8: a file that cannot be opened as a PDF yields a failure result whose
message is the exception's (non-empty) text, and the batch still produces one
result per input, covering every other file. -/
theorem C8_unopenable_failure (w : Path → World) (p ir orr : Path) (fs : FS)
    (ps : List Path) (e : String)
    (hx : (w p).extract = Except.error e) (hne : e ≠ "") :
    (process_pdf (w p) p ir orr fs).1 = (p, false, some e) ∧
      (∃ msg, (process_pdf (w p) p ir orr fs).1.2.2 = some msg ∧ msg ≠ "") ∧
      (runBatch w ir orr ps fs).1.length = ps.length ∧
      (∀ q ∈ ps, ∃ r ∈ (runBatch w ir orr ps fs).1, r.1 = q) := by
  have h1 : process_pdf (w p) p ir orr fs = ((p, false, some e), fs) :=
    process_pdf_extract_err (w p) p ir orr fs e hx
  refine ⟨by rw [h1], ⟨e, by rw [h1], hne⟩, runBatch_length w ir orr ps fs, ?_⟩
  intro q hq
  rw [← runBatch_map_fst w ir orr ps fs] at hq
  obtain ⟨r, hr, hrq⟩ := List.mem_map.mp hq
  exact ⟨r, hr, hrq⟩

/-- Witness for C8: a broken PDF alongside a good one still yields the
failure triple and two results. -/
theorem C8_witness :
    (process_pdf worldBadOpen ["in", "c.pdf"] ["in"] ["out"] emptyFS).1
        = (["in", "c.pdf"], false, some "cannot open broken.pdf") ∧
      (runBatch (fun _ => worldBadOpen) ["in"] ["out"]
        [["in", "c.pdf"], ["in", "a.pdf"]] emptyFS).1.length = 2 := by
  have h := C8_unopenable_failure (fun _ => worldBadOpen) ["in", "c.pdf"] ["in"]
    ["out"] emptyFS [["in", "c.pdf"], ["in", "a.pdf"]] "cannot open broken.pdf"
    rfl (by decide)
  exact ⟨h.1, h.2.2.1⟩

/-- C9: the claim asserts that with zero PDFs located the program writes
nothing to the filesystem.  It does print "No PDFs found.", exit with status
0 and write no files — but the output root directory has already been created
before PDF discovery, a filesystem modification. -/
theorem C9_counterexample :
    (main treeEmpty (fun _ => worldA) 1 ["in"] ["out"] emptyFS).printed
        = ["No PDFs found."] ∧
      (main treeEmpty (fun _ => worldA) 1 ["in"] ["out"] emptyFS).exitCode = 0 ∧
      (main treeEmpty (fun _ => worldA) 1 ["in"] ["out"] emptyFS).fs.dirs ["out"] = true ∧
      emptyFS.dirs ["out"] = false := by
  refine ⟨by decide, by decide, by decide, by decide⟩

/-- C9 (amended): with zero PDFs located the program prints exactly
"No PDFs found.", exits with status 0 and writes no files; the only
filesystem effect is the creation of the output root directory, which happens
before PDF discovery. -/
theorem C9_no_pdfs_amended (m : InFS) (w : Path → World) (t : Nat) (ip op : Path)
    (fs : FS) (h : find_pdfs m ip = []) :
    main m w t ip op fs
        = { printed := ["No PDFs found."], fs := mkdirP fs op, exitCode := 0 } ∧
      (∀ q, (main m w t ip op fs).fs.files q = fs.files q) := by
  have hm : main m w t ip op fs
      = { printed := ["No PDFs found."], fs := mkdirP fs op, exitCode := 0 } := by
    unfold main
    dsimp only
    rw [h]
    rfl
  exact ⟨hm, fun q => by rw [hm]; rfl⟩

/-- Witness for C9: the empty input tree triggers the No-PDFs branch. -/
theorem C9_witness :
    main treeEmpty (fun _ => worldBadOpen) 3 ["root"] ["outdir"] emptyFS
      = { printed := ["No PDFs found."], fs := mkdirP emptyFS ["outdir"], exitCode := 0 } :=
  (C9_no_pdfs_amended treeEmpty (fun _ => worldBadOpen) 3 ["root"] ["outdir"]
    emptyFS rfl).1

/-- C3: the per-file task always yields a triple whose path is the source
path; an exception during extraction, directory creation or writing becomes a
failure triple carrying that exception's message; the batch yields one result
per PDF; and the summary is computed for any result list, with recovered and
failed adding up to processed. -/
theorem C3_exception_containment (w : World) (ww : Path → World) (p ir orr : Path)
    (fs : FS) (ps : List Path) (rs : List TaskResult) :
    ((process_pdf w p ir orr fs).1.1 = p) ∧
    (∀ e, w.extract = Except.error e →
      (process_pdf w p ir orr fs).1 = (p, false, some e)) ∧
    (∀ doc rel m, w.extract = Except.ok doc →
      ((extract_text_ignore_overlays doc).pages.any (fun t => t != "")) = true →
      relativeTo p ir = some rel → w.mkdirErr = some m →
      (process_pdf w p ir orr fs).1 = (p, false, some m)) ∧
    (∀ doc rel m, w.extract = Except.ok doc →
      ((extract_text_ignore_overlays doc).pages.any (fun t => t != "")) = true →
      relativeTo p ir = some rel → w.mkdirErr = none → w.writeErr = some m →
      (process_pdf w p ir orr fs).1 = (p, false, some m)) ∧
    ((runBatch ww ir orr ps fs).1.length = ps.length) ∧
    ((summarize rs).processed = rs.length ∧
      (summarize rs).recovered + (summarize rs).failed = rs.length) := by
  refine ⟨process_pdf_fst w p ir orr fs, ?_, ?_, ?_,
    runBatch_length ww ir orr ps fs, rfl, ?_⟩
  · intro e hx
    rw [process_pdf_extract_err w p ir orr fs e hx]
  · intro doc rel m hx hany hrel hmk
    rw [process_pdf_mkdir_err w doc p ir orr rel fs m hx hany hrel hmk]
  · intro doc rel m hx hany hrel hmk hwr
    rw [process_pdf_write_err w doc p ir orr rel fs m hx hany hrel hmk hwr]
  · have hle := List.length_filter_le (fun r : TaskResult => r.2.1) rs
    simp only [summarize]
    omega

/-- Witness for C3: each catch-all branch at a concrete input — open failure,
mkdir failure, write failure — plus a summary over a failing run. -/
theorem C3_witness :
    (process_pdf worldBadOpen ["in", "c.pdf"] ["in"] ["out"] emptyFS).1
        = (["in", "c.pdf"], false, some "cannot open broken.pdf") ∧
      (process_pdf worldMkdirFail ["in", "a.pdf"] ["in"] ["out"] emptyFS).1
        = (["in", "a.pdf"], false, some "Permission denied") ∧
      (process_pdf worldWriteFail ["in", "a.pdf"] ["in"] ["out"] emptyFS).1
        = (["in", "a.pdf"], false, some "No space left on device") ∧
      (summarize [(["in", "c.pdf"], false, some "nope")]).recovered
          + (summarize [(["in", "c.pdf"], false, some "nope")]).failed = 1 := by
  refine ⟨?_, ?_, ?_, ?_⟩
  · exact (C3_exception_containment worldBadOpen (fun _ => worldBadOpen)
      ["in", "c.pdf"] ["in"] ["out"] emptyFS [] []).2.1 "cannot open broken.pdf" rfl
  · exact (C3_exception_containment worldMkdirFail (fun _ => worldMkdirFail)
      ["in", "a.pdf"] ["in"] ["out"] emptyFS [] []).2.2.1 docA ["a.pdf"]
      "Permission denied" rfl (by decide) rfl rfl
  · exact (C3_exception_containment worldWriteFail (fun _ => worldWriteFail)
      ["in", "a.pdf"] ["in"] ["out"] emptyFS [] []).2.2.2.1 docA ["a.pdf"]
      "No space left on device" rfl (by decide) rfl rfl rfl
  · exact (C3_exception_containment worldA (fun _ => worldA) ["x"] ["x"] ["x"]
      emptyFS [] [(["in", "c.pdf"], false, some "nope")]).2.2.2.2.2.2

/-- C7: re-running the whole batch over the state a first run produced leaves
every output file's bytes unchanged (each write overwrites, nothing
accumulates) and returns the same result triples. -/
theorem C7_idempotent_rerun (w : Path → World) (ir orr : Path) (ps : List Path)
    (fs : FS) :
    (∀ q, (runBatch w ir orr ps (runBatch w ir orr ps fs).2).2.files q
        = (runBatch w ir orr ps fs).2.files q) ∧
      (runBatch w ir orr ps (runBatch w ir orr ps fs).2).1
        = (runBatch w ir orr ps fs).1 := by
  constructor
  · intro q
    rw [runBatch_files w ir orr ps (runBatch w ir orr ps fs).2,
      runBatch_files w ir orr ps fs]
    exact overrideAll_idem (batchWrites w ir orr ps) fs.files q
  · exact runBatch_results_ext w ir orr ps _ _

end Unredact
